import Mathlib

/-!
Verification of the NeroStack temporal access-control core.

Shallow embedding of the Python backend:
  * `backend/models/temporary_access.py` (TemporaryAccess model),
  * `backend/models/document_analysis.py` (DocumentAnalysis model),
  * `backend/routes/access.py` (admin CRUD, revoke, check, dashboard),
  * `backend/routes/ai.py` (access helper and the analyze flow).

Instants (`datetime`) are modelled as natural numbers: every property in
scope only compares instants, never subtracts them (except
`time_remaining`, whose `max(0, ...)` is Nat truncated subtraction).
Database tables are lists of records; a SQLAlchemy
`query.filter(...).first()` is `List.find?`, `.all()` is `List.filter`,
and mutating a fetched ORM row then committing is a map that rewrites the
row with the matching primary key.  Python truthiness of optional
arguments (`if document_version:`, `if processing_time:`) is modelled
explicitly: `None`, the empty string and zero are falsy.  The JSON text
stored for keyword lists is modelled by the decoded list itself (the
source only ever round-trips it through `json.dumps`/`json.loads`).
Route handlers return the HTTP status code they answer with, paired with
the new table state.
-/

/-- Embedding of the `TemporaryAccess` SQLAlchemy model
(`backend/models/temporary_access.py`): a time-bounded access window. -/
structure TemporaryAccess where
  id : Nat
  user_id : Nat
  /-- `None` means a global grant (access to every document). -/
  document_id : Option Nat
  cabinet_id : Option Nat
  start_date : Nat
  end_date : Nat
  access_type : String
  is_active : Bool
  reason : Option String
  created_by : Nat
  created_at : Nat
deriving Repr, DecidableEq

namespace TemporaryAccess

/-- Embedding of `TemporaryAccess.is_valid`:
`self.is_active and start_date <= now <= end_date`. -/
def is_valid (a : TemporaryAccess) (now : Nat) : Bool :=
  a.is_active && decide (a.start_date ≤ now) && decide (now ≤ a.end_date)

/-- Embedding of `TemporaryAccess.is_expired`: `now > end_date`. -/
def is_expired (a : TemporaryAccess) (now : Nat) : Bool :=
  decide (a.end_date < now)

/-- Embedding of `TemporaryAccess.is_pending`: `now < start_date`. -/
def is_pending (a : TemporaryAccess) (now : Nat) : Bool :=
  decide (now < a.start_date)

/-- Embedding of `TemporaryAccess.time_remaining`: 0 when expired, else
the seconds left (`max(0, end_date - now)`, which is Nat truncated
subtraction). -/
def time_remaining (a : TemporaryAccess) (now : Nat) : Nat :=
  if a.is_expired now then 0 else a.end_date - now

/-- Row predicate of the query in `TemporaryAccess.check_document_access`:
user matches, window active and currently inside its bounds, and the
window is document-specific for this document or global
(`document_id == None`). -/
def document_access_pred (uid did now : Nat) (a : TemporaryAccess) : Bool :=
  a.user_id == uid && a.is_active && decide (a.start_date ≤ now) &&
    decide (now ≤ a.end_date) &&
    (a.document_id == some did || a.document_id == none)

/-- Embedding of `TemporaryAccess.check_document_access`: the first
matching row of the query, tested for existence (`.first() is not
None`). -/
def check_document_access (uid did now : Nat) (tbl : List TemporaryAccess) :
    Bool :=
  (tbl.find? (document_access_pred uid did now)).isSome

/-- Row predicate of `TemporaryAccess.get_user_valid_accesses`. -/
def user_valid_pred (uid now : Nat) (a : TemporaryAccess) : Bool :=
  a.user_id == uid && a.is_active && decide (a.start_date ≤ now) &&
    decide (now ≤ a.end_date)

/-- Embedding of `TemporaryAccess.get_user_valid_accesses`: all active
windows of a user whose bounds contain `now`. -/
def get_user_valid_accesses (uid now : Nat) (tbl : List TemporaryAccess) :
    List TemporaryAccess :=
  tbl.filter (user_valid_pred uid now)

end TemporaryAccess

/-- Embedding of the `User` model (`backend/models/user.py`), restricted
to the fields the access-control core reads. -/
structure User where
  id : Nat
  username : String
  email : String
  role : String
  is_active : Bool
deriving Repr, DecidableEq

/-- Embedding of `User.is_admin`: `self.role == 'admin'`. -/
def User.is_admin (u : User) : Bool :=
  u.role == "admin"

/-- JSON body returned by the `check_access` route
(`GET /api/access/check/<document_id>`). -/
structure AccessCheckResult where
  has_access : Bool
  reason : String
  access_type : Option String
  expires_at : Option Nat
  time_remaining : Option Nat
deriving Repr, DecidableEq

/-- Embedding of the `check_access` route handler
(`backend/routes/access.py`): admins are always allowed with reason
`admin`; otherwise the decision is delegated to
`TemporaryAccess.check_document_access`, and on success the first
qualifying row supplies the reported access type and expiry. -/
def check_access (u : User) (did now : Nat) (tbl : List TemporaryAccess) :
    AccessCheckResult :=
  if u.is_admin then
    { has_access := true, reason := "admin", access_type := some "admin",
      expires_at := none, time_remaining := none }
  else if TemporaryAccess.check_document_access u.id did now tbl then
    let acc := tbl.find? (TemporaryAccess.document_access_pred u.id did now)
    { has_access := true, reason := "temporary_access",
      access_type := some ((acc.map (·.access_type)).getD "read"),
      expires_at := acc.map (·.end_date),
      time_remaining := some ((acc.map (·.time_remaining now)).getD 0) }
  else
    { has_access := false, reason := "no_access", access_type := none,
      expires_at := none, time_remaining := none }

/-- Embedding of `check_document_access` in `backend/routes/ai.py`:
admins always pass, everyone else goes through
`TemporaryAccess.check_document_access`. -/
def ai_check_document_access (u : User) (did now : Nat)
    (tbl : List TemporaryAccess) : Bool :=
  if u.is_admin then true
  else TemporaryAccess.check_document_access u.id did now tbl

/-- Buckets of the dashboard response
(`GET /api/access/dashboard`). -/
structure DashboardData where
  active : List TemporaryAccess
  pending : List TemporaryAccess
  expired : List TemporaryAccess
  revoked : List TemporaryAccess
deriving Repr, DecidableEq

/-- Classification loop of `access_dashboard`, processed per window in
list order: `if not is_active / elif is_expired / elif is_pending /
elif is_valid`; the chain has no `else`, so the embedding keeps the
(syntactically possible) drop-through that adds a window to no bucket. -/
def dashboard_buckets (now : Nat) : List TemporaryAccess → DashboardData
  | [] => { active := [], pending := [], expired := [], revoked := [] }
  | a :: rest =>
    let d := dashboard_buckets now rest
    if !a.is_active then { d with revoked := a :: d.revoked }
    else if a.is_expired now then { d with expired := a :: d.expired }
    else if a.is_pending now then { d with pending := a :: d.pending }
    else if a.is_valid now then { d with active := a :: d.active }
    else d

/-- Embedding of the `access_dashboard` route handler: all windows of the
user, classified, with the reported total being the number of the user's
windows. -/
def access_dashboard (uid now : Nat) (tbl : List TemporaryAccess) :
    DashboardData × Nat :=
  let mine := tbl.filter (fun a => a.user_id == uid)
  (dashboard_buckets now mine, mine.length)

/-- Partial update of the windows table: apply `f` to every row whose
`id` matches (the embedding of mutating one fetched ORM row and
committing). -/
def update_by_id (tbl : List TemporaryAccess) (aid : Nat)
    (f : TemporaryAccess → TemporaryAccess) : List TemporaryAccess :=
  tbl.map (fun a => if a.id == aid then f a else a)

/-- Autoincrement for the windows table: one beyond the largest id. -/
def fresh_access_id (tbl : List TemporaryAccess) : Nat :=
  tbl.foldl (fun m a => max m a.id) 0 + 1

/-- Deserialized body of `POST /api/access` (`CreateAccessSchema`). -/
structure CreateAccessData where
  user_id : Nat
  document_id : Option Nat
  cabinet_id : Option Nat
  start_date : Nat
  end_date : Nat
  access_type : String
  reason : Option String
deriving Repr, DecidableEq

/-- Deserialized body of `PUT /api/access/<id>` (`UpdateAccessSchema`):
every field optional. -/
structure UpdateAccessData where
  start_date : Option Nat
  end_date : Option Nat
  access_type : Option String
  is_active : Option Bool
  reason : Option String
deriving Repr, DecidableEq

/-- Embedding of the `create_access` route handler: 404 when the target
user does not exist, 400 when `start_date >= end_date`, otherwise insert
the new window (active by default, via
`TemporaryAccess.create_access`) and answer 201. -/
def create_access (users : List User) (admin_id : Nat)
    (data : CreateAccessData) (now : Nat) (tbl : List TemporaryAccess) :
    Nat × List TemporaryAccess :=
  match users.find? (fun u => u.id == data.user_id) with
  | none => (404, tbl)
  | some _ =>
    if data.start_date ≥ data.end_date then (400, tbl)
    else
      (201, tbl ++ [{ id := fresh_access_id tbl, user_id := data.user_id,
                      document_id := data.document_id,
                      cabinet_id := data.cabinet_id,
                      start_date := data.start_date,
                      end_date := data.end_date,
                      access_type := data.access_type,
                      is_active := true, reason := data.reason,
                      created_by := admin_id, created_at := now }])

/-- The `setattr` loop of `update_access`: each supplied field replaces
the stored one. -/
def apply_update (d : UpdateAccessData) (a : TemporaryAccess) :
    TemporaryAccess :=
  { a with
    start_date := d.start_date.getD a.start_date,
    end_date := d.end_date.getD a.end_date,
    access_type := d.access_type.getD a.access_type,
    is_active := d.is_active.getD a.is_active,
    reason := match d.reason with | some r => some r | none => a.reason }

/-- Embedding of the `update_access` route handler: 404 when the window
does not exist; then the *effective* bounds (supplied value, else stored
value) are checked, 400 on `start >= end` with nothing applied; otherwise
the partial update is applied and the answer is 200. -/
def update_access (aid : Nat) (d : UpdateAccessData)
    (tbl : List TemporaryAccess) : Nat × List TemporaryAccess :=
  match tbl.find? (fun a => a.id == aid) with
  | none => (404, tbl)
  | some a =>
    if d.start_date.getD a.start_date ≥ d.end_date.getD a.end_date then
      (400, tbl)
    else (200, update_by_id tbl aid (apply_update d))

/-- Embedding of the `revoke_access` route handler: 404 when the window
does not exist, otherwise set `is_active := false` (keeping the record)
and answer 200. -/
def revoke_access (aid : Nat) (tbl : List TemporaryAccess) :
    Nat × List TemporaryAccess :=
  match tbl.find? (fun a => a.id == aid) with
  | none => (404, tbl)
  | some _ =>
    (200, update_by_id tbl aid (fun a => { a with is_active := false }))

/-- Embedding of the `DocumentAnalysis` SQLAlchemy model
(`backend/models/document_analysis.py`).  The `keywords` and `key_points`
columns hold JSON text of string lists in the source; they are modelled
by the decoded lists. -/
structure DocumentAnalysis where
  id : Nat
  document_id : Nat
  document_version : Option String
  user_id : Nat
  summary : Option String
  keywords : Option (List String)
  key_points : Option (List String)
  model_used : Option String
  analysis_type : String
  language : String
  processing_time : Option Nat
  token_count : Option Nat
  status : String
  error_message : Option String
  created_at : Nat
  completed_at : Option Nat
deriving Repr, DecidableEq

namespace DocumentAnalysis

/-- Row predicate of the query in
`DocumentAnalysis.get_cached_analysis`: document matches, status is
`completed`, and — only when the supplied version is truthy (not `None`
and not the empty string, per `if document_version:`) — the stored
version equals it. -/
def cached_pred (did : Nat) (v : Option String) (r : DocumentAnalysis) :
    Bool :=
  r.document_id == did && r.status == "completed" &&
    (match v with
     | none => true
     | some s => if s = "" then true else r.document_version == some s)

/-- One step of scanning for the row with the largest `created_at`. -/
def pick_step (acc : Option DocumentAnalysis) (r : DocumentAnalysis) :
    Option DocumentAnalysis :=
  match acc with
  | none => some r
  | some b => if b.created_at < r.created_at then some r else some b

/-- Embedding of `order_by(created_at.desc()).first()`: the first listed
row among those with the largest `created_at` (the relative order of
equal keys is not fixed by the source's query either). -/
def pick_latest (l : List DocumentAnalysis) : Option DocumentAnalysis :=
  l.foldl pick_step none

/-- Embedding of `DocumentAnalysis.get_cached_analysis`. -/
def get_cached_analysis (tbl : List DocumentAnalysis) (did : Nat)
    (v : Option String) : Option DocumentAnalysis :=
  pick_latest (tbl.filter (cached_pred did v))

/-- Autoincrement for the analyses table. -/
def fresh_analysis_id (tbl : List DocumentAnalysis) : Nat :=
  tbl.foldl (fun m r => max m r.id) 0 + 1

/-- Embedding of `DocumentAnalysis.create_analysis`: insert a new record
in `pending` status; this is the only way new records are created. -/
def create_analysis (did uid : Nat) (v : Option String)
    (model : Option String) (atype lang : String) (now : Nat)
    (tbl : List DocumentAnalysis) :
    DocumentAnalysis × List DocumentAnalysis :=
  let r : DocumentAnalysis :=
    { id := fresh_analysis_id tbl, document_id := did,
      document_version := v, user_id := uid, summary := none,
      keywords := none, key_points := none, model_used := model,
      analysis_type := atype, language := lang, processing_time := none,
      token_count := none, status := "pending", error_message := none,
      created_at := now, completed_at := none }
  (r, tbl ++ [r])

/-- Embedding of `DocumentAnalysis.mark_completed` as a record
transformer: store the results, set status `completed`, stamp
`completed_at`, and store `processing_time` only when truthy
(`if processing_time:`). -/
def mark_completed (r : DocumentAnalysis) (s : String)
    (kws kps : List String) (pt : Option Nat) (now : Nat) :
    DocumentAnalysis :=
  { r with
    summary := some s, keywords := some kws, key_points := some kps,
    status := "completed", completed_at := some now,
    processing_time :=
      match pt with
      | some t => if t = 0 then r.processing_time else some t
      | none => r.processing_time }

/-- Embedding of `DocumentAnalysis.mark_failed` as a record transformer:
set status `failed`, store the error, stamp `completed_at`. -/
def mark_failed (r : DocumentAnalysis) (err : String) (now : Nat) :
    DocumentAnalysis :=
  { r with
    status := "failed", error_message := some err,
    completed_at := some now }

end DocumentAnalysis

/-- Partial update of the analyses table by primary key (the embedding of
mutating one fetched ORM row and committing). -/
def update_analysis (tbl : List DocumentAnalysis) (aid : Nat)
    (f : DocumentAnalysis → DocumentAnalysis) : List DocumentAnalysis :=
  tbl.map (fun r => if r.id == aid then f r else r)

/-- Outcome of the external `AIService.analyze_document` call as seen by
the route: a success payload or an error message (the route's `except`
branch is the same `mark_failed` path as an unsuccessful result). -/
inductive AIOutcome
  | success (s : String) (kws kps : List String) (pt : Option Nat)
  | failure (err : String)
deriving Repr, DecidableEq

/-- Embedding of the `analyze_document` route handler
(`backend/routes/ai.py`), with the external collaborators (document
content, AI availability and outcome) as oracle parameters: access check,
cache check unless `force_refresh`, then create a pending record, move it
to `processing`, and mark that same record completed or failed according
to the outcome. -/
def analyze_document (u : User) (did now : Nat)
    (acc_tbl : List TemporaryAccess) (force_refresh : Bool) (lang : String)
    (content : Option String) (ai_up : Bool) (model : String)
    (outcome : AIOutcome) (tbl : List DocumentAnalysis) :
    Nat × List DocumentAnalysis :=
  if !(ai_check_document_access u did now acc_tbl) then (403, tbl)
  else if !force_refresh &&
      (DocumentAnalysis.get_cached_analysis tbl did none).isSome then
    (200, tbl)
  else
    match content with
    | none => (404, tbl)
    | some _ =>
      if !ai_up then (503, tbl)
      else
        let fid := DocumentAnalysis.fresh_analysis_id tbl
        let st1 := (DocumentAnalysis.create_analysis did u.id none
          (some model) "full" lang now tbl).2
        let st2 := update_analysis st1 fid
          (fun r => { r with status := "processing" })
        match outcome with
        | .success s kws kps pt =>
          (200, update_analysis st2 fid
            (fun r => DocumentAnalysis.mark_completed r s kws kps pt now))
        | .failure err =>
          (500, update_analysis st2 fid
            (fun r => DocumentAnalysis.mark_failed r err now))

/-! ## Theorems -/

/-- Claim C1: for every window and reference instant, `is_valid` returns
true if and only if the window is enabled and the instant lies in the
closed interval `[start_date, end_date]` (soundness and completeness of
the validity predicate). -/
theorem is_valid_iff (a : TemporaryAccess) (now : Nat) :
    a.is_valid now = true ↔
      a.is_active = true ∧ a.start_date ≤ now ∧ now ≤ a.end_date := by
  simp [TemporaryAccess.is_valid, and_assoc]

/-- Claim C9 counterexample: for a corrupt window whose `start_date`
exceeds its `end_date` (start 2, end 0) the instant 1 is simultaneously
after the end and before the start, so `is_expired` and `is_pending` are
both true, refuting the claim as stated over every window. -/
theorem expired_and_pending_counterexample :
    let a : TemporaryAccess :=
      { id := 1, user_id := 1, document_id := none, cabinet_id := none,
        start_date := 2, end_date := 0, access_type := "read",
        is_active := true, reason := none, created_by := 1, created_at := 0 }
    a.is_expired 1 = true ∧ a.is_pending 1 = true := by
  constructor <;> rfl

/-- Claim C9 (amended): for every window whose bounds are ordered
(`start_date ≤ end_date`, the invariant creation and update enforce) and
every reference instant, `is_expired` and `is_pending` are never
simultaneously true. -/
theorem not_expired_and_pending (a : TemporaryAccess) (now : Nat)
    (h : a.start_date ≤ a.end_date) :
    ¬ (a.is_expired now = true ∧ a.is_pending now = true) := by
  simp only [TemporaryAccess.is_expired, TemporaryAccess.is_pending,
    decide_eq_true_eq]
  rintro ⟨h1, h2⟩
  omega

/-- Claim C9 witness: the amended theorem applied to a concrete ordered
window. -/
theorem not_expired_and_pending_witness :
    let a : TemporaryAccess :=
      { id := 1, user_id := 1, document_id := none, cabinet_id := none,
        start_date := 3, end_date := 7, access_type := "read",
        is_active := true, reason := none, created_by := 1, created_at := 0 }
    a.start_date ≤ a.end_date ∧
      ¬ (a.is_expired 5 = true ∧ a.is_pending 5 = true) :=
  ⟨by decide, not_expired_and_pending _ 5 (by decide)⟩

/-- Claim C6 counterexample: an enabled window with `start_date ==
end_date == 5` is reported valid by the evaluator at the instant 5 — the
code tests `start_date <= now <= end_date`, an inclusive interval, so the
shared bound itself is inside the window, refuting that such a window is
invalid at every instant. -/
theorem degenerate_window_valid_at_bound :
    let a : TemporaryAccess :=
      { id := 1, user_id := 1, document_id := none, cabinet_id := none,
        start_date := 5, end_date := 5, access_type := "read",
        is_active := true, reason := none, created_by := 1, created_at := 0 }
    a.is_valid 5 = true := by
  rfl

/-- Claim C6 (amended): a window with `start_date == end_date` is invalid
at every instant except the shared bound itself, where it is valid
exactly when it is enabled; the evaluator is a total function, so it
never throws. -/
theorem degenerate_window_valid_iff (a : TemporaryAccess) (now : Nat)
    (h : a.start_date = a.end_date) :
    a.is_valid now = true ↔ a.is_active = true ∧ now = a.start_date := by
  simp only [TemporaryAccess.is_valid, Bool.and_assoc, Bool.and_eq_true,
    decide_eq_true_eq]
  constructor
  · rintro ⟨hact, h1, h2⟩
    exact ⟨hact, by omega⟩
  · rintro ⟨hact, h1⟩
    exact ⟨hact, by omega, by omega⟩

/-- Claim C6 witness: the amended theorem applied to a concrete
degenerate window and instant. -/
theorem degenerate_window_valid_iff_witness :
    let a : TemporaryAccess :=
      { id := 1, user_id := 1, document_id := none, cabinet_id := none,
        start_date := 5, end_date := 5, access_type := "read",
        is_active := false, reason := none, created_by := 1, created_at := 0 }
    a.start_date = a.end_date ∧
      (a.is_valid 5 = true ↔ a.is_active = true ∧ 5 = a.start_date) :=
  ⟨by decide, degenerate_window_valid_iff _ 5 (by decide)⟩

/-- Claim C3: an elevated principal (role `admin`) is allowed with reason
`admin` for every document, instant and window table, both in the access
route and in the AI routes' access helper. -/
theorem admin_always_allowed (u : User) (did now : Nat)
    (tbl : List TemporaryAccess) (h : u.role = "admin") :
    (check_access u did now tbl).has_access = true ∧
      (check_access u did now tbl).reason = "admin" ∧
      ai_check_document_access u did now tbl = true := by
  have hadm : u.is_admin = true := by simp [User.is_admin, h]
  simp [check_access, ai_check_document_access, hadm]

/-- Claim C3 witness: a concrete admin user, an arbitrary document id and
a window table that grants them nothing. -/
theorem admin_always_allowed_witness :
    let u : User := { id := 9, username := "root", email := "r@x",
                      role := "admin", is_active := true }
    (check_access u 424242 0 []).has_access = true ∧
      (check_access u 424242 0 []).reason = "admin" ∧
      ai_check_document_access u 424242 0 [] = true :=
  admin_always_allowed _ 424242 0 [] rfl

/-- Claim C2: for a non-elevated principal the decision is allowed with
reason `temporary_access` exactly when some stored window belongs to the
principal, is enabled, currently inside its bounds, and either global
(`document_id = none`) or tied to the requested document; otherwise it is
a denial with reason `no_access`.  The decision is a total function, so
an unknown document id can never raise. -/
theorem non_admin_access_iff (u : User) (did now : Nat)
    (tbl : List TemporaryAccess) (h : u.role ≠ "admin") :
    ((check_access u did now tbl).has_access = true ↔
      ∃ a ∈ tbl, a.user_id = u.id ∧ a.is_active = true ∧
        a.start_date ≤ now ∧ now ≤ a.end_date ∧
        (a.document_id = none ∨ a.document_id = some did)) ∧
    ((check_access u did now tbl).has_access = true →
      (check_access u did now tbl).reason = "temporary_access") ∧
    ((check_access u did now tbl).has_access = false →
      (check_access u did now tbl).reason = "no_access") := by
  have hadm : u.is_admin = false := by
    simp [User.is_admin]
    exact h
  have hmem : TemporaryAccess.check_document_access u.id did now tbl = true ↔
      ∃ a ∈ tbl, a.user_id = u.id ∧ a.is_active = true ∧
        a.start_date ≤ now ∧ now ≤ a.end_date ∧
        (a.document_id = none ∨ a.document_id = some did) := by
    simp only [TemporaryAccess.check_document_access, List.find?_isSome,
      TemporaryAccess.document_access_pred, Bool.and_eq_true,
      Bool.or_eq_true, beq_iff_eq, decide_eq_true_eq]
    constructor
    · rintro ⟨a, ha, ⟨⟨⟨hu, hact⟩, h1⟩, h2⟩, hdoc⟩
      exact ⟨a, ha, hu, hact, h1, h2, hdoc.symm⟩
    · rintro ⟨a, ha, hu, hact, h1, h2, hdoc⟩
      exact ⟨a, ha, ⟨⟨⟨hu, hact⟩, h1⟩, h2⟩, hdoc.symm⟩
  by_cases hc : TemporaryAccess.check_document_access u.id did now tbl = true
  · refine ⟨?_, ?_, ?_⟩ <;> simp [check_access, hadm, hc, hmem.mp hc, ← hmem]
  · have hc' : TemporaryAccess.check_document_access u.id did now tbl = false :=
      by simpa using hc
    refine ⟨?_, ?_, ?_⟩ <;> simp [check_access, hadm, hc', ← hmem]

/-- Claim C2 witness: a non-admin user holding a single currently-valid
global window is allowed on a never-seen document id 424242 with reason
`temporary_access`. -/
theorem non_admin_access_iff_witness :
    let u : User := { id := 7, username := "u", email := "u@x",
                      role := "user", is_active := true }
    let a : TemporaryAccess :=
      { id := 1, user_id := 7, document_id := none, cabinet_id := none,
        start_date := 10, end_date := 20, access_type := "read",
        is_active := true, reason := none, created_by := 9, created_at := 0 }
    u.role ≠ "admin" ∧
    (((check_access u 424242 15 [a]).has_access = true ↔
      ∃ w ∈ [a], w.user_id = u.id ∧ w.is_active = true ∧
        w.start_date ≤ 15 ∧ 15 ≤ w.end_date ∧
        (w.document_id = none ∨ w.document_id = some 424242)) ∧
    ((check_access u 424242 15 [a]).has_access = true →
      (check_access u 424242 15 [a]).reason = "temporary_access") ∧
    ((check_access u 424242 15 [a]).has_access = false →
      (check_access u 424242 15 [a]).reason = "no_access")) :=
  ⟨by decide, non_admin_access_iff _ 424242 15 _ (by decide)⟩

/-- At one fixed instant the drop-through of the classification chain is
unreachable, so the four bucket lengths always sum to the length of the
classified list. -/
theorem dashboard_buckets_length (now : Nat) (l : List TemporaryAccess) :
    (dashboard_buckets now l).active.length +
      (dashboard_buckets now l).pending.length +
      (dashboard_buckets now l).expired.length +
      (dashboard_buckets now l).revoked.length = l.length := by
  induction l with
  | nil => rfl
  | cons a rest ih =>
    by_cases hact : a.is_active = true
    · by_cases hexp : a.is_expired now = true
      · simp [dashboard_buckets, hact, hexp]
        omega
      · by_cases hpen : a.is_pending now = true
        · simp [dashboard_buckets, hact, hexp, hpen]
          omega
        · have hval : a.is_valid now = true := by
            simp only [TemporaryAccess.is_expired, decide_eq_true_eq] at hexp
            simp only [TemporaryAccess.is_pending, decide_eq_true_eq] at hpen
            simp only [TemporaryAccess.is_valid, Bool.and_eq_true,
              decide_eq_true_eq]
            exact ⟨⟨hact, by omega⟩, by omega⟩
          simp [dashboard_buckets, hact, hexp, hpen, hval]
          omega
    · have hact' : a.is_active = false := by simpa using hact
      simp [dashboard_buckets, hact']
      omega

/-- Claim C10: the dashboard partitions the user's windows at a fixed
reference instant — every window of the user lands in exactly one of the
buckets revoked, expired, pending, active, so the four bucket counts sum
to the reported total. -/
theorem dashboard_partition (uid now : Nat) (tbl : List TemporaryAccess) :
    (access_dashboard uid now tbl).1.active.length +
      (access_dashboard uid now tbl).1.pending.length +
      (access_dashboard uid now tbl).1.expired.length +
      (access_dashboard uid now tbl).1.revoked.length =
      (access_dashboard uid now tbl).2 :=
  dashboard_buckets_length now _

/-- Disabling a row by id keeps the lookup by that id working: the update
preserves every row's id. -/
theorem find_update_by_id_disable (tbl : List TemporaryAccess) (aid : Nat) :
    ((update_by_id tbl aid (fun a => { a with is_active := false })).find?
        (fun a => a.id == aid)).isSome =
      (tbl.find? (fun a => a.id == aid)).isSome := by
  induction tbl with
  | nil => rfl
  | cons a rest ih =>
    by_cases hx : a.id == aid
    · simp [update_by_id, List.find?, hx]
    · have hx' : (a.id == aid) = false := by simpa using hx
      simpa [update_by_id, List.find?, hx'] using ih

/-- Disabling a row by id twice is the same as doing it once. -/
theorem update_by_id_disable_idem (tbl : List TemporaryAccess) (aid : Nat) :
    update_by_id
        (update_by_id tbl aid (fun a => { a with is_active := false }))
        aid (fun a => { a with is_active := false }) =
      update_by_id tbl aid (fun a => { a with is_active := false }) := by
  simp only [update_by_id, List.map_map]
  apply List.map_congr_left
  intro x _
  by_cases hx : x.id == aid
  · simp [Function.comp, hx]
  · have hx' : (x.id == aid) = false := by simpa using hx
    simp [Function.comp, hx']

/-- Claim C8: revocation is idempotent and non-destructive: when the
window exists, the first revoke answers 200, the second revoke also
answers 200 and changes nothing more, the record count is unchanged (the
row is disabled, not deleted), and the revoked window has
`is_active = false`. -/
theorem revoke_idempotent (aid : Nat) (tbl : List TemporaryAccess)
    (h : (tbl.find? (fun a => a.id == aid)).isSome = true) :
    (revoke_access aid tbl).1 = 200 ∧
      (revoke_access aid (revoke_access aid tbl).2).1 = 200 ∧
      (revoke_access aid (revoke_access aid tbl).2).2 =
        (revoke_access aid tbl).2 ∧
      (revoke_access aid tbl).2.length = tbl.length ∧
      ∀ a ∈ (revoke_access aid tbl).2, a.id = aid → a.is_active = false := by
  obtain ⟨a0, ha0⟩ := Option.isSome_iff_exists.mp h
  have h2 : ((update_by_id tbl aid
      (fun a => { a with is_active := false })).find?
        (fun a => a.id == aid)).isSome = true := by
    rw [find_update_by_id_disable, ha0]
    rfl
  obtain ⟨a1, ha1⟩ := Option.isSome_iff_exists.mp h2
  refine ⟨?_, ?_, ?_, ?_, ?_⟩
  · simp [revoke_access, ha0]
  · simp [revoke_access, ha0, ha1]
  · simp [revoke_access, ha0, ha1, update_by_id_disable_idem]
  · simp [revoke_access, ha0, update_by_id]
  · simp only [revoke_access, ha0, update_by_id]
    intro a ha hid
    obtain ⟨x, _, hx⟩ := List.mem_map.mp ha
    by_cases hc : x.id == aid
    · rw [if_pos hc] at hx
      rw [← hx]
    · rw [if_neg hc] at hx
      subst hx
      exact absurd (by simpa using hid) (by simpa using hc)

/-- Claim C8 witness: revoking the only window of a one-row table
twice. -/
theorem revoke_idempotent_witness :
    let a : TemporaryAccess :=
      { id := 1, user_id := 7, document_id := some 3, cabinet_id := none,
        start_date := 0, end_date := 10, access_type := "read",
        is_active := true, reason := none, created_by := 9, created_at := 0 }
    (([a].find? (fun w => w.id == 1)).isSome = true) ∧
    ((revoke_access 1 [a]).1 = 200 ∧
      (revoke_access 1 (revoke_access 1 [a]).2).1 = 200 ∧
      (revoke_access 1 (revoke_access 1 [a]).2).2 =
        (revoke_access 1 [a]).2 ∧
      (revoke_access 1 [a]).2.length = [a].length ∧
      ∀ w ∈ (revoke_access 1 [a]).2, w.id = 1 → w.is_active = false) :=
  ⟨by decide, revoke_idempotent 1 _ (by decide)⟩

/-- Claim C5: both creation and update reject effective bounds with
`start_date >= end_date` (equality included) with a 400 validation error
and leave the stored table unchanged; update evaluates the effective
bounds (supplied value when present, else the stored one) before applying
any partial change. -/
theorem bad_bounds_rejected (users : List User) (admin_id : Nat)
    (data : CreateAccessData) (now : Nat) (tbl₁ : List TemporaryAccess)
    (aid : Nat) (d : UpdateAccessData) (tbl₂ : List TemporaryAccess)
    (a : TemporaryAccess)
    (hu : (users.find? (fun u => u.id == data.user_id)).isSome = true)
    (hd₁ : data.start_date ≥ data.end_date)
    (ha : tbl₂.find? (fun w => w.id == aid) = some a)
    (hd₂ : d.start_date.getD a.start_date ≥ d.end_date.getD a.end_date) :
    create_access users admin_id data now tbl₁ = (400, tbl₁) ∧
      update_access aid d tbl₂ = (400, tbl₂) := by
  obtain ⟨u, hu'⟩ := Option.isSome_iff_exists.mp hu
  constructor
  · simp [create_access, hu', hd₁]
  · simp [update_access, ha, hd₂]

/-- Claim C5 witness: a create request with equal timestamps for an
existing user, and an update supplying only a new `start_date` equal to
the stored `end_date`. -/
theorem bad_bounds_rejected_witness :
    (([{ id := 7, username := "u", email := "u@x", role := "user",
         is_active := true }].find?
        (fun w : User => w.id == (7 : Nat))).isSome = true ∧
      (5 : Nat) ≥ 5 ∧
      [{ id := 1, user_id := 7, document_id := none, cabinet_id := none,
         start_date := 0, end_date := 10, access_type := "read",
         is_active := true, reason := none, created_by := 9,
         created_at := 0 }].find? (fun w : TemporaryAccess => w.id == 1) =
        some { id := 1, user_id := 7, document_id := none,
               cabinet_id := none, start_date := 0, end_date := 10,
               access_type := "read", is_active := true, reason := none,
               created_by := 9, created_at := 0 } ∧
      ((some 10 : Option Nat).getD 0 ≥ (none : Option Nat).getD 10)) ∧
    (create_access
        [{ id := 7, username := "u", email := "u@x", role := "user",
           is_active := true }] 9
        { user_id := 7, document_id := none, cabinet_id := none,
          start_date := 5, end_date := 5, access_type := "read",
          reason := none } 0 [] = (400, []) ∧
      update_access 1
        { start_date := some 10, end_date := none, access_type := none,
          is_active := none, reason := none }
        [{ id := 1, user_id := 7, document_id := none, cabinet_id := none,
           start_date := 0, end_date := 10, access_type := "read",
           is_active := true, reason := none, created_by := 9,
           created_at := 0 }] =
        (400, [{ id := 1, user_id := 7, document_id := none,
                 cabinet_id := none, start_date := 0, end_date := 10,
                 access_type := "read", is_active := true, reason := none,
                 created_by := 9, created_at := 0 }])) :=
  ⟨⟨by decide, by decide, by decide, by decide⟩,
    bad_bounds_rejected
      [{ id := 7, username := "u", email := "u@x", role := "user",
         is_active := true }] 9
      { user_id := 7, document_id := none, cabinet_id := none,
        start_date := 5, end_date := 5, access_type := "read",
        reason := none } 0 [] 1
      { start_date := some 10, end_date := none, access_type := none,
        is_active := none, reason := none }
      [{ id := 1, user_id := 7, document_id := none, cabinet_id := none,
         start_date := 0, end_date := 10, access_type := "read",
         is_active := true, reason := none, created_by := 9,
         created_at := 0 }]
      { id := 1, user_id := 7, document_id := none, cabinet_id := none,
        start_date := 0, end_date := 10, access_type := "read",
        is_active := true, reason := none, created_by := 9,
        created_at := 0 }
      (by decide) (by decide) (by decide) (by decide)⟩

/-- Scanning a list for the latest row, starting from a candidate `b`,
yields a row of the scanned list or `b` itself, no earlier than `b` and
no earlier than any scanned row. -/
theorem pick_foldl_some (l : List DocumentAnalysis) (b : DocumentAnalysis) :
    ∃ r, l.foldl DocumentAnalysis.pick_step (some b) = some r ∧
      (r = b ∨ r ∈ l) ∧ b.created_at ≤ r.created_at ∧
      ∀ x ∈ l, x.created_at ≤ r.created_at := by
  induction l generalizing b with
  | nil => exact ⟨b, rfl, Or.inl rfl, Nat.le_refl _, by simp⟩
  | cons x xs ih =>
    by_cases hbx : b.created_at < x.created_at
    · obtain ⟨r, hr, hmem, hle, hall⟩ := ih x
      refine ⟨r, ?_, ?_, ?_, ?_⟩
      · simpa [List.foldl_cons, DocumentAnalysis.pick_step, hbx] using hr
      · rcases hmem with h | h
        · exact Or.inr (by simp [h])
        · exact Or.inr (by simp [h])
      · exact Nat.le_trans (Nat.le_of_lt hbx) hle
      · intro y hy
        rcases List.mem_cons.mp hy with rfl | hy'
        · exact hle
        · exact hall y hy'
    · obtain ⟨r, hr, hmem, hle, hall⟩ := ih b
      refine ⟨r, ?_, ?_, ?_, ?_⟩
      · simpa [List.foldl_cons, DocumentAnalysis.pick_step, hbx] using hr
      · rcases hmem with h | h
        · exact Or.inl h
        · exact Or.inr (by simp [h])
      · exact hle
      · intro y hy
        rcases List.mem_cons.mp hy with rfl | hy'
        · exact Nat.le_trans (Nat.le_of_not_lt hbx) hle
        · exact hall y hy'

/-- The latest-row scan is `none` only on the empty list, and any row it
returns belongs to the list and has the largest `created_at`. -/
theorem pick_latest_spec (l : List DocumentAnalysis) :
    (DocumentAnalysis.pick_latest l = none → l = []) ∧
      ∀ r, DocumentAnalysis.pick_latest l = some r →
        r ∈ l ∧ ∀ x ∈ l, x.created_at ≤ r.created_at := by
  cases l with
  | nil =>
    refine ⟨fun _ => rfl, ?_⟩
    intro r hr
    cases hr
  | cons x xs =>
    obtain ⟨r, hr, hmem, hle, hall⟩ := pick_foldl_some xs x
    have heq : DocumentAnalysis.pick_latest (x :: xs) = some r := by
      simpa [DocumentAnalysis.pick_latest, List.foldl_cons,
        DocumentAnalysis.pick_step] using hr
    constructor
    · intro h
      rw [heq] at h
      cases h
    · intro r' hr'
      rw [heq] at hr'
      injection hr' with h'
      subst h'
      refine ⟨?_, ?_⟩
      · rcases hmem with h | h
        · simp [h]
        · simp [h]
      · intro y hy
        rcases List.mem_cons.mp hy with rfl | hy'
        · exact hle
        · exact hall y hy'

/-- When the supplied version key is not the empty string, the cache row
predicate coincides with the specified match: same document, status
`completed`, and the supplied version (when present) equal to the stored
one. -/
theorem cached_pred_iff (did : Nat) (v : Option String)
    (hv : ∀ s, v = some s → s ≠ "") (r : DocumentAnalysis) :
    DocumentAnalysis.cached_pred did v r = true ↔
      r.document_id = did ∧ r.status = "completed" ∧
        ∀ s, v = some s → r.document_version = some s := by
  cases v with
  | none => simp [DocumentAnalysis.cached_pred]
  | some s =>
    have hs : s ≠ "" := hv s rfl
    simp only [DocumentAnalysis.cached_pred, if_neg hs, Bool.and_eq_true,
      beq_iff_eq]
    constructor
    · rintro ⟨⟨h1, h2⟩, h3⟩
      refine ⟨h1, h2, ?_⟩
      intro t ht
      injection ht with ht'
      subst ht'
      exact h3
    · rintro ⟨h1, h2, h3⟩
      exact ⟨⟨h1, h2⟩, h3 s rfl⟩

/-- Claim C4 counterexample: looking up document 1 while *supplying* the
version key `""` returns a completed record whose stored version is
`"v1"`, not `""` — the source's `if document_version:` treats the empty
string as "no version supplied", so the supplied key is not matched. -/
theorem get_cached_empty_version_counterexample :
    let r : DocumentAnalysis :=
      { id := 1, document_id := 1, document_version := some "v1",
        user_id := 7, summary := some "A", keywords := none,
        key_points := none, model_used := none, analysis_type := "full",
        language := "fr", processing_time := none, token_count := none,
        status := "completed", error_message := none, created_at := 10,
        completed_at := some 11 }
    DocumentAnalysis.get_cached_analysis [r] 1 (some "") = some r ∧
      r.document_version ≠ some "" := by
  constructor
  · rfl
  · decide

/-- Claim C4 (amended): when the supplied version key is absent or
non-empty (an empty string is treated by the code as "no version
supplied"), the cache lookup returns `none` exactly when no completed
record matches the document (and the version when supplied), and any
record it returns is a completed match with the largest `created_at`
among all matches — the freshest completed analysis.  Moreover the cache
round-trip holds: creating a pending record, transitioning it to
`completed` with summary `"X"`, then looking up the same document id
returns a record with summary `"X"`. -/
theorem get_cached_spec (tbl : List DocumentAnalysis) (did : Nat)
    (v : Option String) (hv : ∀ s, v = some s → s ≠ "") :
    (DocumentAnalysis.get_cached_analysis tbl did v = none →
      ∀ r ∈ tbl, ¬(r.document_id = did ∧ r.status = "completed" ∧
        ∀ s, v = some s → r.document_version = some s)) ∧
    (∀ r, DocumentAnalysis.get_cached_analysis tbl did v = some r →
      r ∈ tbl ∧ r.document_id = did ∧ r.status = "completed" ∧
      (∀ s, v = some s → r.document_version = some s) ∧
      ∀ x ∈ tbl, x.document_id = did → x.status = "completed" →
        (∀ s, v = some s → x.document_version = some s) →
        x.created_at ≤ r.created_at) ∧
    (DocumentAnalysis.get_cached_analysis
        (update_analysis
          (DocumentAnalysis.create_analysis 1 7 none none "full" "fr" 3 []).2
          (DocumentAnalysis.create_analysis 1 7 none none "full" "fr" 3 []).1.id
          (fun r => DocumentAnalysis.mark_completed r "X" [] [] none 5))
        1 none).map (fun r => r.summary) = some (some "X") := by
  refine ⟨?_, ?_, ?_⟩
  · intro h r hr hmatch
    have hempty : tbl.filter (DocumentAnalysis.cached_pred did v) = [] :=
      (pick_latest_spec _).1 h
    have hrf : r ∈ tbl.filter (DocumentAnalysis.cached_pred did v) :=
      List.mem_filter.mpr ⟨hr, (cached_pred_iff did v hv r).mpr hmatch⟩
    rw [hempty] at hrf
    cases hrf
  · intro r hr
    obtain ⟨hmem, hmax⟩ :=
      (pick_latest_spec (tbl.filter (DocumentAnalysis.cached_pred did v))).2
        r hr
    have hmf := List.mem_filter.mp hmem
    have hmatch := (cached_pred_iff did v hv r).mp hmf.2
    refine ⟨hmf.1, hmatch.1, hmatch.2.1, hmatch.2.2, ?_⟩
    intro x hx h1 h2 h3
    exact hmax x
      (List.mem_filter.mpr ⟨hx, (cached_pred_iff did v hv x).mpr ⟨h1, h2, h3⟩⟩)
  · rfl


/-- Claim C4 witness: the amended theorem applied to a one-record table
holding a completed analysis of document 1 with version `"v1"`, looked up
with that same (non-empty) version key. -/
theorem get_cached_spec_witness :
    let r1 : DocumentAnalysis :=
      { id := 1, document_id := 1, document_version := some "v1",
        user_id := 7, summary := some "A", keywords := none,
        key_points := none, model_used := none, analysis_type := "full",
        language := "fr", processing_time := none, token_count := none,
        status := "completed", error_message := none, created_at := 10,
        completed_at := some 11 }
    (∀ s, (some "v1" : Option String) = some s → s ≠ "") ∧
    ((DocumentAnalysis.get_cached_analysis [r1] 1 (some "v1") = none →
      ∀ r ∈ [r1], ¬(r.document_id = 1 ∧ r.status = "completed" ∧
        ∀ s, (some "v1" : Option String) = some s →
          r.document_version = some s)) ∧
    (∀ r, DocumentAnalysis.get_cached_analysis [r1] 1 (some "v1") = some r →
      r ∈ [r1] ∧ r.document_id = 1 ∧ r.status = "completed" ∧
      (∀ s, (some "v1" : Option String) = some s →
        r.document_version = some s) ∧
      ∀ x ∈ [r1], x.document_id = 1 → x.status = "completed" →
        (∀ s, (some "v1" : Option String) = some s →
          x.document_version = some s) →
        x.created_at ≤ r.created_at) ∧
    (DocumentAnalysis.get_cached_analysis
        (update_analysis
          (DocumentAnalysis.create_analysis 1 7 none none "full" "fr" 3 []).2
          (DocumentAnalysis.create_analysis 1 7 none none "full" "fr" 3 []).1.id
          (fun r => DocumentAnalysis.mark_completed r "X" [] [] none 5))
        1 none).map (fun r => r.summary) = some (some "X")) := by
  intro r1
  exact ⟨fun s h => by cases h; decide,
    get_cached_spec [r1] 1 (some "v1") (fun s h => by cases h; decide)⟩

/-- The running maximum in the autoincrement fold never decreases. -/
theorem foldl_max_id_le (l : List DocumentAnalysis) (m : Nat) :
    m ≤ l.foldl (fun m r => max m r.id) m := by
  induction l generalizing m with
  | nil => exact Nat.le_refl m
  | cons x xs ih =>
    exact Nat.le_trans (Nat.le_max_left m x.id) (ih (max m x.id))

/-- Every id in the table is bounded by the autoincrement fold. -/
theorem id_le_foldl_max (l : List DocumentAnalysis) :
    ∀ (m : Nat) (r : DocumentAnalysis), r ∈ l →
      r.id ≤ l.foldl (fun m x => max m x.id) m := by
  induction l with
  | nil =>
    intro m r hr
    cases hr
  | cons x xs ih =>
    intro m r hr
    rcases List.mem_cons.mp hr with rfl | hr'
    · exact Nat.le_trans (Nat.le_max_right m r.id) (foldl_max_id_le xs _)
    · exact ih (max m x.id) r hr'

/-- A freshly assigned analysis id is strictly larger than every id in
the table. -/
theorem fresh_analysis_id_gt (tbl : List DocumentAnalysis)
    (r : DocumentAnalysis) (hr : r ∈ tbl) :
    r.id < DocumentAnalysis.fresh_analysis_id tbl :=
  Nat.lt_succ_of_le (id_le_foldl_max tbl 0 r hr)

/-- Two successive updates of the same row collapse to one when the
first preserves the row's id. -/
theorem update_analysis_twice (tbl : List DocumentAnalysis) (i : Nat)
    (g h : DocumentAnalysis → DocumentAnalysis)
    (hg : ∀ z, (g z).id = z.id) :
    update_analysis (update_analysis tbl i g) i h =
      update_analysis tbl i (fun z => h (g z)) := by
  simp only [update_analysis, List.map_map]
  apply List.map_congr_left
  intro x _
  by_cases hx : (x.id == i) = true
  · have hgx : ((g x).id == i) = true := by
      rw [hg]
      exact hx
    simp [Function.comp, hx, hgx]
  · have hx' : (x.id == i) = false := by simpa using hx
    simp [Function.comp, hx']

/-- The analyze flow either leaves the analyses table untouched or
appends one fresh `pending` record and rewrites only that record (through
id-preserving transformations). -/
theorem analyze_document_state (u : User) (did now : Nat)
    (acc_tbl : List TemporaryAccess) (fr : Bool) (lang : String)
    (content : Option String) (ai_up : Bool) (model : String)
    (outcome : AIOutcome) (tbl : List DocumentAnalysis) :
    (analyze_document u did now acc_tbl fr lang content ai_up model
        outcome tbl).2 = tbl ∨
    ∃ f : DocumentAnalysis → DocumentAnalysis,
      (∀ z, (f z).id = z.id) ∧
      (analyze_document u did now acc_tbl fr lang content ai_up model
          outcome tbl).2 =
        update_analysis
          (tbl ++ [(DocumentAnalysis.create_analysis did u.id none
            (some model) "full" lang now tbl).1])
          (DocumentAnalysis.fresh_analysis_id tbl) f := by
  unfold analyze_document
  split
  · exact Or.inl rfl
  · split
    · exact Or.inl rfl
    · split
      · exact Or.inl rfl
      · split
        · exact Or.inl rfl
        · split
          · rename_i s kws kps pt
            right
            refine ⟨fun z => DocumentAnalysis.mark_completed
              { z with status := "processing" } s kws kps pt now,
              fun z => rfl, ?_⟩
            exact update_analysis_twice
              (tbl ++ [(DocumentAnalysis.create_analysis did u.id none
                (some model) "full" lang now tbl).1])
              (DocumentAnalysis.fresh_analysis_id tbl)
              (fun z => { z with status := "processing" })
              (fun z => DocumentAnalysis.mark_completed z s kws kps pt now)
              (fun z => rfl)
          · rename_i err
            right
            refine ⟨fun z => DocumentAnalysis.mark_failed
              { z with status := "processing" } err now,
              fun z => rfl, ?_⟩
            exact update_analysis_twice
              (tbl ++ [(DocumentAnalysis.create_analysis did u.id none
                (some model) "full" lang now tbl).1])
              (DocumentAnalysis.fresh_analysis_id tbl)
              (fun z => { z with status := "processing" })
              (fun z => DocumentAnalysis.mark_failed z err now)
              (fun z => rfl)

/-- Claim C7: terminal analysis records are immutable: the two terminal
statuses are mutually exclusive (a record holds a single status), and the
analyze flow — the only operation that transitions records — never
changes a record that is already `completed` or `failed`: it only ever
marks the fresh record it created itself. -/
theorem terminal_records_immutable (u : User) (did now : Nat)
    (acc_tbl : List TemporaryAccess) (fr : Bool) (lang : String)
    (content : Option String) (ai_up : Bool) (model : String)
    (outcome : AIOutcome) (tbl : List DocumentAnalysis)
    (hids : (tbl.map (fun r => r.id)).Nodup) (r : DocumentAnalysis)
    (hr : r ∈ tbl) (hterm : r.status = "completed" ∨ r.status = "failed") :
    ¬(r.status = "completed" ∧ r.status = "failed") ∧
    ∀ x ∈ (analyze_document u did now acc_tbl fr lang content ai_up model
        outcome tbl).2, x.id = r.id → x = r := by
  have hinj := List.inj_on_of_nodup_map hids
  constructor
  · rintro ⟨h1, h2⟩
    rw [h1] at h2
    exact absurd h2 (by decide)
  · intro x hx hid
    rcases analyze_document_state u did now acc_tbl fr lang content ai_up
        model outcome tbl with hcase | ⟨f, hf, hcase⟩
    · rw [hcase] at hx
      exact hinj hx hr hid
    · rw [hcase] at hx
      simp only [update_analysis, List.mem_map] at hx
      obtain ⟨y, hy, hxy⟩ := hx
      have hrlt : r.id < DocumentAnalysis.fresh_analysis_id tbl :=
        fresh_analysis_id_gt tbl r hr
      rcases List.mem_append.mp hy with hy1 | hy2
      · have hylt : y.id < DocumentAnalysis.fresh_analysis_id tbl :=
          fresh_analysis_id_gt tbl y hy1
        have hbeq : (y.id == DocumentAnalysis.fresh_analysis_id tbl) =
            false := by
          simp only [beq_eq_false_iff_ne, ne_eq]
          omega
        rw [hbeq] at hxy
        simp only [Bool.false_eq_true, if_false] at hxy
        subst hxy
        exact hinj hy1 hr hid
      · have hy' : y = (DocumentAnalysis.create_analysis did u.id none
            (some model) "full" lang now tbl).1 := by
          simpa using hy2
        have hyid : y.id = DocumentAnalysis.fresh_analysis_id tbl := by
          rw [hy']
          rfl
        have hbeq : (y.id == DocumentAnalysis.fresh_analysis_id tbl) =
            true := by
          simp [hyid]
        rw [hbeq] at hxy
        simp only [if_true] at hxy
        have hxid : x.id = y.id := by
          rw [← hxy]
          exact hf y
        omega

/-- Claim C7 witness: the theorem applied to an analyze run (forced
refresh, AI failure) over a table holding one already-completed record:
that record survives unchanged. -/
theorem terminal_records_immutable_witness :
    let u : User := { id := 9, username := "root", email := "r@x",
                      role := "admin", is_active := true }
    let r1 : DocumentAnalysis :=
      { id := 1, document_id := 2, document_version := none, user_id := 7,
        summary := some "A", keywords := none, key_points := none,
        model_used := none, analysis_type := "full", language := "fr",
        processing_time := none, token_count := none,
        status := "completed", error_message := none, created_at := 10,
        completed_at := some 11 }
    (([r1].map (fun r => r.id)).Nodup ∧ r1 ∈ [r1] ∧
      (r1.status = "completed" ∨ r1.status = "failed")) ∧
    (¬(r1.status = "completed" ∧ r1.status = "failed") ∧
      ∀ x ∈ (analyze_document u 2 0 [] true "fr" (some "text") true "m"
        (AIOutcome.failure "boom") [r1]).2, x.id = r1.id → x = r1) := by
  intro u r1
  refine ⟨⟨by decide, by simp, Or.inl rfl⟩, ?_⟩
  exact terminal_records_immutable u 2 0 [] true "fr" (some "text") true
    "m" (AIOutcome.failure "boom") [r1] (by decide) r1 (by simp)
    (Or.inl rfl)
